import Mathlib

/-
Shallow embedding of the jk-cli installer core, translated from the
repository's install command (src/unnamed/part_001, the later strict
variant that the design document follows).  The external world —
network responses, subprocess exit codes, directory listings and the
SHA-256 primitive — is passed in explicitly as oracle functions, so
every definition is executable on concrete inputs.
-/

namespace JK

/-- Model of JavaScript String.prototype.trim on the underlying
character list: whitespace is stripped from both ends. -/
def trimList (l : List Char) : List Char :=
  ((l.dropWhile Char.isWhitespace).reverse.dropWhile Char.isWhitespace).reverse

/-- Model of JavaScript String.prototype.trim. -/
def jsTrim (s : String) : String := ⟨trimList s.data⟩

/-- Model of the JavaScript string length property (character count). -/
def jsLength (s : String) : Nat := s.data.length

/-- Model of JavaScript String.prototype.startsWith. -/
def jsStartsWith (s pat : String) : Bool := pat.data.isPrefixOf s.data

/-- Model of JavaScript String.prototype.endsWith. -/
def jsEndsWith (s pat : String) : Bool := pat.data.isSuffixOf s.data

/-- Model of JavaScript String.prototype.toLowerCase. -/
def jsToLower (s : String) : String := ⟨s.data.map Char.toLower⟩

/-- Model of JavaScript String.prototype.includes for a one-character needle. -/
def jsContainsChar (s : String) (c : Char) : Bool := s.data.contains c

/-- Model of JavaScript String.prototype.slice from a character index. -/
def jsDrop (s : String) (n : Nat) : String := ⟨s.data.drop n⟩

/-- Accumulator loop behind `jsSplitChar`. -/
def splitChAux (c : Char) : List Char → List Char → List String
  | [], acc => [⟨acc.reverse⟩]
  | x :: rest, acc =>
    if x == c then ⟨acc.reverse⟩ :: splitChAux c rest []
    else splitChAux c rest (x :: acc)

/-- Model of JavaScript String.prototype.split with a one-character separator. -/
def jsSplitChar (c : Char) (s : String) : List String := splitChAux c s.data []

/-- `stripPrefix` from the source: a startsWith guard, then slice past the tag. -/
def stripPrefix (s pat : String) : String :=
  if jsStartsWith s pat then jsDrop s (jsLength pat) else s

/-- A release asset, as consumed from the hosting API metadata. -/
structure Asset where
  name : String
  browser_download_url : String
deriving DecidableEq

/-- Release metadata: resolved tag plus the ordered asset list. -/
structure Release where
  tag_name : String
  assets : List Asset
deriving DecidableEq

/-- One outcome record per request: `reason` is `none` exactly on success. -/
structure InstallOutcome where
  pkg : String
  ok : Bool
  reason : Option String
deriving DecidableEq

/-- A top-level entry of the dependency-store directory.  The source's
`fs.readdirSync` only ever observes `name`; `content` stands for the data
below that entry, carried here so content-independence is expressible. -/
structure DirEntry where
  name : String
  content : String
deriving DecidableEq

/-- The four stages of the release-acquisition pipeline, recorded in the
order the code runs them. -/
inductive Stage
  | resolve
  | select
  | download
  | verify
deriving DecidableEq

/-- The ecosystem classification returned by `detectPackageType`. -/
inductive PkgType
  | npm
  | github
  | pip
  | cargo
  | go
  | brew
  | system
  | invalid
deriving DecidableEq

/-- Asset selection from the source: the first asset whose name ends in
".tar.gz", else the first ending in ".zip", else none — no fallback. -/
def selectAsset (assets : List Asset) : Option Asset :=
  match assets.find? (fun a => jsEndsWith a.name ".tar.gz") with
  | some a => some a
  | none => assets.find? (fun a => jsEndsWith a.name ".zip")

/-- Modelled from the spec's words, for comparison with `selectAsset`:
"first asset whose name ends in the archive suffix .tar.gz; else first
asset ending in .zip; else fail", phrased by filtering and taking heads. -/
def selectAssetSpecOrder (assets : List Asset) : Option Asset :=
  match assets.filter (fun a => jsEndsWith a.name ".tar.gz") with
  | a :: _ => some a
  | [] =>
    match assets.filter (fun a => jsEndsWith a.name ".zip") with
    | a :: _ => some a
    | [] => none

/-- The observable behaviour of one `downloadWithRetry` call: final result,
number of download attempts performed, and the backoff waits (in ms)
performed after failed attempts, in order. -/
structure RetryResult where
  ok : Bool
  attemptsMade : Nat
  waits : List Nat
deriving DecidableEq

/-- The `for (let i = 0; i <= retries; i++)` loop of `downloadWithRetry`:
attempt `i`; on success stop, on failure wait `500 * (i + 1)` ms and go on.
`fuel` is the number of loop iterations left (`retries + 1 - i`). -/
def downloadLoopAux (att : Nat → Bool) : Nat → Nat → RetryResult
  | _, 0 => ⟨false, 0, []⟩
  | i, fuel + 1 =>
    if att i then ⟨true, 1, []⟩
    else
      let r := downloadLoopAux att (i + 1) fuel
      ⟨r.ok, r.attemptsMade + 1, 500 * (i + 1) :: r.waits⟩

/-- `downloadWithRetry(url, dest, retries)` with the attempt outcomes given
as an oracle; the source's default is `retries = 2`, i.e. three attempts. -/
def downloadWithRetry (att : Nat → Bool) (retries : Nat) : RetryResult :=
  downloadLoopAux att 0 (retries + 1)

/-- `verifySha256` from the source.  `fetched` is the result of fetching the
checksum.sha256 file (`none` covers a failed fetch and an unreadable
body); `actual` is the SHA-256 hex digest of the downloaded file. -/
def verifySha256 (fetched : Option String) (actual : String) : Bool :=
  match fetched with
  | none => false
  | some body =>
    let expected := jsTrim body
    if expected = "" ∨ jsLength expected < 32 then false
    else expected == actual

/-- Lexicographic character-list comparison, modelling the default string
order used by JavaScript Array.prototype.sort. -/
def charLe : List Char → List Char → Bool
  | [], _ => true
  | _ :: _, [] => false
  | x :: xs, y :: ys =>
    if x.val < y.val then true
    else if y.val < x.val then false
    else charLe xs ys

/-- String comparison for the directory-listing sort. -/
def strLeB (a b : String) : Bool := charLe a.data b.data

/-- Insertion step of the listing sort. -/
def sortInsert (s : String) : List String → List String
  | [] => [s]
  | t :: rest => if strLeB s t then s :: t :: rest else t :: sortInsert s rest

/-- Model of `Array.prototype.sort` on the directory listing. -/
def sortStrings : List String → List String
  | [] => []
  | s :: rest => sortInsert s (sortStrings rest)

/-- Model of `Array.prototype.join("|")`. -/
def joinBar : List String → String
  | [] => ""
  | [s] => s
  | s :: rest => s ++ "|" ++ joinBar rest

/-- `snapshotDir` from the source: hash of the sorted, "|"-joined top-level
entry names, or the sentinel "missing" when the directory is unreadable.
`hash` is the injected SHA-256-hex primitive; only entry names are read. -/
def snapshotDir (hash : String → String) (listing : Option (List DirEntry)) : String :=
  match listing with
  | none => "missing"
  | some entries => hash (joinBar (sortStrings (entries.map (fun en => en.name))))

/-- External world of one `installFromNpm` call: the hash primitive, the
subprocess exit status, and the node_modules listings observed by the
snapshot taken before and after the subprocess. -/
structure NpmEnv where
  hash : String → String
  exitZero : Bool
  before : Option (List DirEntry)
  after : Option (List DirEntry)

/-- `installFromNpm` from the source: snapshot, run npm, fail on non-zero
exit, then downgrade a zero-exit run to failure when the before/after
fingerprints coincide. -/
def installFromNpm (e : NpmEnv) (pkg : String) : InstallOutcome :=
  let before := snapshotDir e.hash e.before
  if e.exitZero then
    let after := snapshotDir e.hash e.after
    if before = after then ⟨pkg, false, some "no changes detected in node_modules"⟩
    else ⟨pkg, true, none⟩
  else ⟨pkg, false, some "npm exited with non-zero code"⟩

/-- `installFromPip`: exit code zero is the whole success criterion. -/
def installFromPip (exitZero : Bool) (pkg : String) : InstallOutcome :=
  if exitZero then ⟨pkg, true, none⟩ else ⟨pkg, false, some "pip install failed"⟩

/-- `installFromCargo`. -/
def installFromCargo (exitZero : Bool) (pkg : String) : InstallOutcome :=
  if exitZero then ⟨pkg, true, none⟩ else ⟨pkg, false, some "cargo install failed"⟩

/-- `installFromGo`. -/
def installFromGo (exitZero : Bool) (pkg : String) : InstallOutcome :=
  if exitZero then ⟨pkg, true, none⟩ else ⟨pkg, false, some "go install failed"⟩

/-- `installFromBrew`. -/
def installFromBrew (exitZero : Bool) (pkg : String) : InstallOutcome :=
  if exitZero then ⟨pkg, true, none⟩ else ⟨pkg, false, some "brew install failed"⟩

/-- The `const [repo, version = "latest"] = spec.split("@")` destructuring. -/
def parseSpec (s : String) : String × String :=
  match jsSplitChar '@' s with
  | [] => ("", "latest")
  | [r] => (r, "latest")
  | r :: v :: _ => (r, v)

/-- External world of one `installFromGitHub` call.  `fetchRelease` is keyed
by repository and version, `att` by download url and attempt index,
`fileNonZero` and `fileDigest` by asset name, `checksumFetch` by repository
and resolved tag. -/
structure GhEnv where
  fetchRelease : String → String → Option Release
  att : String → Nat → Bool
  fileNonZero : String → Bool
  checksumFetch : String → String → Option String
  fileDigest : String → String

/-- Result of one hosted-release request: the outcome, the pipeline stages
that were run (in order), and the number of network calls performed. -/
structure GhResult where
  outcome : InstallOutcome
  trace : List Stage
  net : Nat
deriving DecidableEq

/-- `installFromGitHub` from the source.  `release.assets` is a Lean list,
so the source's `Array.isArray` guard is always satisfied and only its
emptiness check remains. -/
def installFromGitHub (e : GhEnv) (s : String) : GhResult :=
  let repo := (parseSpec s).1
  let version := (parseSpec s).2
  match e.fetchRelease repo version with
  | none => ⟨⟨s, false, some "release not found"⟩, [Stage.resolve], 1⟩
  | some release =>
    if release.assets.isEmpty then
      ⟨⟨s, false, some "no assets in release"⟩, [Stage.resolve, Stage.select], 1⟩
    else
      match selectAsset release.assets with
      | none => ⟨⟨s, false, some "no supported asset types"⟩, [Stage.resolve, Stage.select], 1⟩
      | some asset =>
        let dl := downloadWithRetry (e.att asset.browser_download_url) 2
        if dl.ok then
          if e.fileNonZero asset.name then
            if verifySha256 (e.checksumFetch repo release.tag_name) (e.fileDigest asset.name) then
              ⟨⟨s, true, none⟩,
                [Stage.resolve, Stage.select, Stage.download, Stage.verify],
                2 + dl.attemptsMade⟩
            else
              ⟨⟨s, false, some "integrity failed (checksum required)"⟩,
                [Stage.resolve, Stage.select, Stage.download, Stage.verify],
                2 + dl.attemptsMade⟩
          else
            ⟨⟨s, false, some "downloaded file empty or missing"⟩,
              [Stage.resolve, Stage.select, Stage.download], 1 + dl.attemptsMade⟩
        else
          ⟨⟨s, false, some "download failed"⟩,
            [Stage.resolve, Stage.select, Stage.download], 1 + dl.attemptsMade⟩

/-- Stage 1 (metadata resolution) succeeds. -/
def ghStage1Ok (e : GhEnv) (s : String) : Bool :=
  (e.fetchRelease (parseSpec s).1 (parseSpec s).2).isSome

/-- Stage 2 (asset selection) succeeds: a release was resolved, its asset
list is non-empty, and the strict selection finds a supported asset. -/
def ghStage2Ok (e : GhEnv) (s : String) : Bool :=
  match e.fetchRelease (parseSpec s).1 (parseSpec s).2 with
  | none => false
  | some release => !release.assets.isEmpty && (selectAsset release.assets).isSome

/-- Stage 3 (download) succeeds: the retrying download reports success and
the destination file is non-empty. -/
def ghStage3Ok (e : GhEnv) (s : String) : Bool :=
  match e.fetchRelease (parseSpec s).1 (parseSpec s).2 with
  | none => false
  | some release =>
    if release.assets.isEmpty then false
    else
      match selectAsset release.assets with
      | none => false
      | some asset =>
        (downloadWithRetry (e.att asset.browser_download_url) 2).ok
          && e.fileNonZero asset.name

/-- Stage 4 (checksum verification) condition for the selected asset. -/
def ghStage4Ok (e : GhEnv) (s : String) : Bool :=
  match e.fetchRelease (parseSpec s).1 (parseSpec s).2 with
  | none => false
  | some release =>
    match selectAsset release.assets with
    | none => false
    | some asset =>
      verifySha256 (e.checksumFetch (parseSpec s).1 release.tag_name)
        (e.fileDigest asset.name)

/-- The fixed system-tool allow-list of `detectPackageType`. -/
def systemTools : List String :=
  ["git", "python", "node", "cargo", "go", "pip", "pnpm", "bun"]

/-- External world of one whole `install` run. -/
structure Env where
  ghProbe : String → Bool
  npmProbe : String → Bool
  npm : String → NpmEnv
  pipExit : String → Bool
  cargoExit : String → Bool
  goExit : String → Bool
  brewExit : String → Bool
  gh : GhEnv
  fatal : String → Option String

/-- `detectPackageType` from the source, additionally reporting how many
network probes were performed (second component). -/
def detectPackageTypeT (e : Env) (pkg : String) : PkgType × Nat :=
  let clean := jsTrim pkg
  if clean = "" ∨ jsLength clean < 2 then (PkgType.invalid, 0)
  else if systemTools.contains (jsToLower clean) then (PkgType.system, 0)
  else if jsStartsWith clean "npm:" then (PkgType.npm, 0)
  else if jsStartsWith clean "github:" then (PkgType.github, 0)
  else if jsStartsWith clean "pip:" then (PkgType.pip, 0)
  else if jsStartsWith clean "cargo:" then (PkgType.cargo, 0)
  else if jsStartsWith clean "go:" then (PkgType.go, 0)
  else if jsStartsWith clean "brew:" then (PkgType.brew, 0)
  else if jsContainsChar clean '/' then
    if e.ghProbe clean then (PkgType.github, 1)
    else if e.npmProbe clean then (PkgType.npm, 2)
    else (PkgType.invalid, 2)
  else if e.npmProbe clean then (PkgType.npm, 1)
  else (PkgType.invalid, 1)

/-- `detectPackageType` proper. -/
def detectPackageType (e : Env) (pkg : String) : PkgType :=
  (detectPackageTypeT e pkg).1

/-- One iteration of the `install` loop, additionally reporting the number
of network calls (second component) and subprocess invocations (third
component) performed for the request.  The `fatal` oracle models the
`catch (err)` arm around detection and dispatch. -/
def installStepT (e : Env) (raw : String) : InstallOutcome × Nat × Nat :=
  let pkg := jsTrim raw
  if pkg = "" then (⟨raw, false, some "empty package name"⟩, 0, 0)
  else
    match e.fatal pkg with
    | some msg => (⟨pkg, false, some ("fatal: " ++ msg)⟩, 0, 0)
    | none =>
      let d := detectPackageTypeT e pkg
      match d.1 with
      | PkgType.npm =>
        (installFromNpm (e.npm (stripPrefix pkg "npm:")) (stripPrefix pkg "npm:"), d.2, 1)
      | PkgType.github =>
        let r := installFromGitHub e.gh (stripPrefix pkg "github:")
        (r.outcome, d.2 + r.net, 0)
      | PkgType.pip =>
        (installFromPip (e.pipExit (stripPrefix pkg "pip:")) (stripPrefix pkg "pip:"), d.2, 1)
      | PkgType.cargo =>
        (installFromCargo (e.cargoExit (stripPrefix pkg "cargo:")) (stripPrefix pkg "cargo:"), d.2, 1)
      | PkgType.go =>
        (installFromGo (e.goExit (stripPrefix pkg "go:")) (stripPrefix pkg "go:"), d.2, 1)
      | PkgType.brew =>
        (installFromBrew (e.brewExit (stripPrefix pkg "brew:")) (stripPrefix pkg "brew:"), d.2, 1)
      | PkgType.system =>
        (⟨pkg, false, some "system tool — cannot be installed via jk"⟩, d.2, 0)
      | PkgType.invalid =>
        (⟨pkg, false, some "unknown or invalid package"⟩, d.2, 0)

/-- The outcome of one `install` loop iteration. -/
def installStep (e : Env) (raw : String) : InstallOutcome :=
  (installStepT e raw).1

/-- The `for (const raw of pkgs)` loop: each iteration appends exactly one
outcome to the accumulated results. -/
def installLoop (e : Env) : List String → List InstallOutcome → List InstallOutcome
  | [], acc => acc
  | raw :: rest, acc => installLoop e rest (acc ++ [installStep e raw])

/-- `install` from the source, returning the aggregated outcome list (the
source hands this list to `summary`; an empty input returns early). -/
def install (e : Env) (pkgs : List String) : List InstallOutcome :=
  if pkgs.isEmpty then [] else installLoop e pkgs []

/-- A hosted-release world with no reachable services at all. -/
def ghEnvDead : GhEnv :=
  ⟨fun _ _ => none, fun _ _ => false, fun _ => false, fun _ _ => none, fun _ => ""⟩

/-- A release carrying both a `.zip` and two `.tar.gz` assets. -/
def relMixed : Release :=
  ⟨"v1.0.0", [⟨"tool.zip", "u0"⟩, ⟨"tool.tar.gz", "u1"⟩, ⟨"spare.tar.gz", "u2"⟩]⟩

/-- A release whose only asset is of an unsupported type. -/
def relBinOnly : Release := ⟨"v1.0.0", [⟨"tool.bin", "u0"⟩]⟩

/-- A hosted-release world where the release resolves to `relMixed` but
every download attempt fails. -/
def ghEnvAllDownloadsFail : GhEnv :=
  ⟨fun _ _ => some relMixed, fun _ _ => false, fun _ => true, fun _ _ => none, fun _ => ""⟩

/-- A hosted-release world where the release resolves to `relBinOnly`. -/
def ghEnvBinOnly : GhEnv :=
  ⟨fun _ _ => some relBinOnly, fun _ _ => true, fun _ => true, fun _ _ => none, fun _ => ""⟩

/-- An npm world whose dependency store keeps the same single top-level
entry name across the install, while that entry's contents change. -/
def npmEnvSameNames : NpmEnv :=
  ⟨fun s => s, true, some [⟨"lodash", "1.0"⟩], some [⟨"lodash", "2.0"⟩]⟩

/-- A whole-run world where every probe fails, every subprocess exits
zero, and no request throws. -/
def envSubprocZero : Env :=
  ⟨fun _ => false, fun _ => false, fun _ => npmEnvSameNames, fun _ => true,
    fun _ => true, fun _ => true, fun _ => true, ghEnvDead, fun _ => none⟩

/-- A whole-run world where every probe fails, every subprocess exits
non-zero, and no request throws. -/
def envAllFail : Env :=
  ⟨fun _ => false, fun _ => false, fun _ => npmEnvSameNames, fun _ => false,
    fun _ => false, fun _ => false, fun _ => false, ghEnvDead, fun _ => none⟩

/-- A 64-character lowercase hex digest used as a concrete checksum. -/
def demoDigest : String :=
  "0123456789abcdef0123456789abcdef0123456789abcdef0123456789abcdef"

theorem dropWhile_idem (p : α → Bool) (l : List α) :
    (l.dropWhile p).dropWhile p = l.dropWhile p := by
  induction l with
  | nil => rfl
  | cons a t ih =>
    by_cases h : p a = true
    · simp [List.dropWhile_cons, h, ih]
    · simp [List.dropWhile_cons, h]

theorem prefix_dropWhile_self {p : α → Bool} {l l' : List α}
    (hpre : l' <+: l) (hl : l.dropWhile p = l) : l'.dropWhile p = l' := by
  obtain ⟨u, rfl⟩ := hpre
  cases l' with
  | nil => rfl
  | cons a t =>
    have hcons : List.dropWhile p (a :: (t ++ u)) = a :: (t ++ u) := by
      simpa using hl
    by_cases h : p a = true
    · exfalso
      rw [List.dropWhile_cons, if_pos h] at hcons
      have hlen : (List.dropWhile p (t ++ u)).length ≤ (t ++ u).length :=
        (List.dropWhile_suffix p).sublist.length_le
      rw [hcons] at hlen
      simp at hlen
    · simp [List.dropWhile_cons, h]

theorem trimList_idem (l : List Char) : trimList (trimList l) = trimList l := by
  unfold trimList
  set u := l.dropWhile Char.isWhitespace with hu
  set v := u.reverse.dropWhile Char.isWhitespace with hv
  have hui : u.dropWhile Char.isWhitespace = u := by
    rw [hu]; exact dropWhile_idem _ _
  have hvi : v.dropWhile Char.isWhitespace = v := by
    rw [hv]; exact dropWhile_idem _ _
  have hvu : v.reverse <+: u := by
    rw [← List.reverse_reverse u]
    exact List.reverse_prefix.mpr (by rw [hv]; exact List.dropWhile_suffix _)
  have h1 : v.reverse.dropWhile Char.isWhitespace = v.reverse :=
    prefix_dropWhile_self hvu hui
  rw [h1, List.reverse_reverse, hvi]

theorem jsTrim_idem (s : String) : jsTrim (jsTrim s) = jsTrim s :=
  congrArg String.mk (trimList_idem s.data)

theorem find?_eq_head_filter (p : α → Bool) (l : List α) :
    l.find? p = (l.filter p).head? := by
  induction l with
  | nil => rfl
  | cons a t ih =>
    cases hpa : p a
    · rw [List.find?_cons, List.filter_cons, hpa, ih]; rfl
    · rw [List.find?_cons, List.filter_cons, hpa]; rfl

theorem installLoop_eq (e : Env) (l : List String) :
    ∀ acc, installLoop e l acc = acc ++ l.map (installStep e) := by
  induction l with
  | nil => intro acc; simp [installLoop]
  | cons raw rest ih =>
    intro acc
    have h : installLoop e (raw :: rest) acc
        = installLoop e rest (acc ++ [installStep e raw]) := rfl
    rw [h, ih]
    simp

theorem installFromNpm_noop_core (e : NpmEnv) (pkg : String)
    (hexit : e.exitZero = true)
    (hfp : snapshotDir e.hash e.before = snapshotDir e.hash e.after) :
    installFromNpm e pkg = ⟨pkg, false, some "no changes detected in node_modules"⟩ := by
  simp [installFromNpm, hexit, hfp]

/-- C2: for every input list of N identifier strings the installer produces
exactly N outcome records, one per input and in input order, regardless of
how many individual requests fail: the aggregated result list is exactly
the per-request outcome mapped over the inputs, so no request is dropped. -/
theorem install_outcome_count_order (e : Env) (pkgs : List String) :
    install e pkgs = pkgs.map (installStep e)
    ∧ (install e pkgs).length = pkgs.length := by
  have hmain : install e pkgs = pkgs.map (installStep e) := by
    cases pkgs with
    | nil => rfl
    | cons a t =>
      show installLoop e (a :: t) [] = (a :: t).map (installStep e)
      simpa using installLoop_eq e (a :: t) []
  exact ⟨hmain, by rw [hmain]; simp⟩

/-- C3: asset selection is a pure function of the asset list following the
strict total order the spec states (first asset ending in ".tar.gz", else
first ending in ".zip", else none, with no fallback): it coincides with the
order spelled out from the spec's words, any list containing a ".tar.gz"
entry yields the first such entry, and a selection miss surfaces as the
"no supported asset types" failure of the pipeline. -/
theorem selectAsset_strict_total_order :
    (∀ assets : List Asset,
      selectAsset assets = selectAssetSpecOrder assets
      ∧ ((assets.find? (fun a => jsEndsWith a.name ".tar.gz")).isSome = true →
          selectAsset assets = assets.find? (fun a => jsEndsWith a.name ".tar.gz")))
    ∧ (∀ (e : GhEnv) (s : String) (release : Release),
        e.fetchRelease (parseSpec s).1 (parseSpec s).2 = some release →
        release.assets.isEmpty = false →
        selectAsset release.assets = none →
        (installFromGitHub e s).outcome = ⟨s, false, some "no supported asset types"⟩) := by
  constructor
  · intro assets
    constructor
    · unfold selectAsset selectAssetSpecOrder
      rw [find?_eq_head_filter, find?_eq_head_filter]
      cases h1 : assets.filter (fun a => jsEndsWith a.name ".tar.gz") with
      | nil =>
        cases h2 : assets.filter (fun a => jsEndsWith a.name ".zip") <;> simp
      | cons b t => simp
    · intro hsome
      cases hf : assets.find? (fun a => jsEndsWith a.name ".tar.gz") with
      | none => rw [hf] at hsome; simp at hsome
      | some a => simp [selectAsset, hf]
  · intro e s release hrel hne hsel
    simp only [installFromGitHub, hrel, hne, hsel, Bool.false_eq_true, if_false]

/-- C3 witness: on a concrete mixed asset list the first ".tar.gz" entry is
chosen, and on a release with only an unsupported asset the pipeline fails
with "no supported asset types". -/
theorem selectAsset_strict_total_order_witness :
    selectAsset relMixed.assets
        = relMixed.assets.find? (fun a => jsEndsWith a.name ".tar.gz")
    ∧ (installFromGitHub ghEnvBinOnly "o/r").outcome
        = ⟨"o/r", false, some "no supported asset types"⟩ :=
  ⟨(selectAsset_strict_total_order.1 relMixed.assets).2 (by decide),
   selectAsset_strict_total_order.2 ghEnvBinOnly "o/r" relBinOnly rfl
     (by decide) (by decide)⟩

/-- C4: given a successfully fetched expected-digest text, checksum
verification accepts if and only if the SHA-256 hex digest of the
downloaded file (always 64 characters) equals the trimmed expected text as
an exact, case-sensitive string comparison; any difference, including a
single-character case difference, rejects. -/
theorem verifySha256_case_sensitive_exact (body actual : String)
    (hlen : jsLength actual = 64) :
    verifySha256 (some body) actual = true ↔ jsTrim body = actual := by
  simp only [verifySha256]
  by_cases hguard : jsTrim body = "" ∨ jsLength (jsTrim body) < 32
  · rw [if_pos hguard]
    simp only [Bool.false_eq_true, false_iff]
    intro heq
    rcases hguard with h | h
    · rw [heq] at h
      rw [h] at hlen
      simp [jsLength] at hlen
    · rw [heq] at h
      omega
  · rw [if_neg hguard]
    exact beq_iff_eq

/-- C4 witness: a fetched text that trims to the file's digest is accepted,
and one that differs only in the case of one character is rejected. -/
theorem verifySha256_case_sensitive_exact_witness :
    verifySha256 (some (demoDigest ++ "\n")) demoDigest = true
    ∧ verifySha256
        (some "0123456789Abcdef0123456789abcdef0123456789abcdef0123456789abcdef")
        demoDigest = false := by
  constructor
  · exact (verifySha256_case_sensitive_exact (demoDigest ++ "\n") demoDigest
      (by decide)).mpr (by decide)
  · have h := verifySha256_case_sensitive_exact
      "0123456789Abcdef0123456789abcdef0123456789abcdef0123456789abcdef"
      demoDigest (by decide)
    cases hv : verifySha256
        (some "0123456789Abcdef0123456789abcdef0123456789abcdef0123456789abcdef")
        demoDigest
    · rfl
    · exact absurd (h.mp hv) (by decide)

/-- C5: checksum verification rejects whenever the expected-digest fetch
failed or the retrieved text trims to something empty or shorter than 32
characters, independently of the downloaded file's digest, and without any
retry (the verification consults its fetch result exactly once). -/
theorem verifySha256_rejects_missing_or_short (fetched : Option String)
    (actual : String)
    (h : fetched = none
      ∨ ∃ body, fetched = some body
          ∧ (jsTrim body = "" ∨ jsLength (jsTrim body) < 32)) :
    verifySha256 fetched actual = false := by
  rcases h with rfl | ⟨body, rfl, hg⟩
  · rfl
  · simp [verifySha256, hg]

/-- C5 witness: a failed fetch and a short (error-page-like) body are both
rejected against an arbitrary 64-character digest. -/
theorem verifySha256_rejects_missing_or_short_witness :
    verifySha256 none demoDigest = false
    ∧ verifySha256 (some "  deadbeef  ") demoDigest = false :=
  ⟨verifySha256_rejects_missing_or_short none demoDigest (Or.inl rfl),
   verifySha256_rejects_missing_or_short (some "  deadbeef  ") demoDigest
     (Or.inr ⟨"  deadbeef  ", rfl, Or.inr (by decide)⟩)⟩

/-- C7: when the npm subprocess exits zero but the dependency-store
fingerprint taken before equals the fingerprint taken after, the outcome is
a failure whose reason is the source's "no changes detected in
node_modules" string — of which the claim's "no changes detected" is the
leading part. -/
theorem installFromNpm_noop_downgrade (e : NpmEnv) (pkg : String)
    (hexit : e.exitZero = true)
    (hfp : snapshotDir e.hash e.before = snapshotDir e.hash e.after) :
    installFromNpm e pkg = ⟨pkg, false, some "no changes detected in node_modules"⟩
    ∧ jsStartsWith "no changes detected in node_modules" "no changes detected" = true :=
  ⟨installFromNpm_noop_core e pkg hexit hfp, by decide⟩

/-- C7 witness: a zero-exit install over a store whose entry names did not
change is downgraded to the no-changes failure. -/
theorem installFromNpm_noop_downgrade_witness :
    installFromNpm npmEnvSameNames "left-pad"
      = ⟨"left-pad", false, some "no changes detected in node_modules"⟩ :=
  (installFromNpm_noop_downgrade npmEnvSameNames "left-pad" rfl (by decide)).1

/-- C10: the no-op-detection fingerprint is a function only of the
top-level entry names of the dependency store (with sentinel "missing" when
it is unreadable), never of entry contents: two directory states with
identical entry-name lists fingerprint identically, and a zero-exit install
across such states is reported as the no-changes failure. -/
theorem snapshot_fingerprint_names_only (hashF : String → String)
    (d1 d2 : List DirEntry) (pkg : String)
    (hnames : d1.map (fun en => en.name) = d2.map (fun en => en.name)) :
    snapshotDir hashF (some d1) = snapshotDir hashF (some d2)
    ∧ snapshotDir hashF none = "missing"
    ∧ installFromNpm ⟨hashF, true, some d1, some d2⟩ pkg
        = ⟨pkg, false, some "no changes detected in node_modules"⟩ := by
  have hs : snapshotDir hashF (some d1) = snapshotDir hashF (some d2) := by
    simp only [snapshotDir]
    rw [hnames]
  exact ⟨hs, rfl, installFromNpm_noop_core ⟨hashF, true, some d1, some d2⟩ pkg rfl hs⟩

/-- C10 witness: stores with the same single entry name but different entry
contents fingerprint identically and trigger the no-changes downgrade. -/
theorem snapshot_fingerprint_names_only_witness :
    snapshotDir (fun s => s) (some [⟨"lodash", "1.0"⟩])
        = snapshotDir (fun s => s) (some [⟨"lodash", "2.0"⟩])
    ∧ snapshotDir (fun s => s) none = "missing"
    ∧ installFromNpm ⟨fun s => s, true, some [⟨"lodash", "1.0"⟩], some [⟨"lodash", "2.0"⟩]⟩ "x"
        = ⟨"x", false, some "no changes detected in node_modules"⟩ :=
  snapshot_fingerprint_names_only (fun s => s) [⟨"lodash", "1.0"⟩]
    [⟨"lodash", "2.0"⟩] "x" rfl

/-- C1: a hosted-release request succeeds exactly when metadata resolution,
asset selection, download and checksum verification all succeed, and the
stages run in that order with any failure terminal: the recorded stage
trace is always the prefix of resolve-select-download-verify cut at the
first failing stage, so checksum verification runs last and passing it is
the only path to a `success = true` outcome. -/
theorem github_pipeline_gating (e : GhEnv) (s : String) :
    (installFromGitHub e s).outcome.ok
        = (ghStage1Ok e s && ghStage2Ok e s && ghStage3Ok e s && ghStage4Ok e s)
    ∧ (installFromGitHub e s).trace
        = Stage.resolve ::
            (if ghStage1Ok e s then
              Stage.select ::
                (if ghStage2Ok e s then
                  Stage.download ::
                    (if ghStage3Ok e s then [Stage.verify] else [])
                else [])
            else []) := by
  unfold installFromGitHub ghStage1Ok ghStage2Ok ghStage3Ok ghStage4Ok
  cases hrel : e.fetchRelease (parseSpec s).1 (parseSpec s).2 with
  | none => simp [hrel]
  | some release =>
    cases hemp : release.assets.isEmpty with
    | true => simp [hrel, hemp]
    | false =>
      cases hsel : selectAsset release.assets with
      | none => simp [hrel, hemp, hsel]
      | some asset =>
        cases hdl : (downloadWithRetry (e.att asset.browser_download_url) 2).ok with
        | false => simp [hrel, hemp, hsel, hdl]
        | true =>
          cases hfz : e.fileNonZero asset.name with
          | false => simp [hrel, hemp, hsel, hdl, hfz]
          | true =>
            cases hv : verifySha256 (e.checksumFetch (parseSpec s).1 release.tag_name)
                (e.fileDigest asset.name) with
            | false => simp [hrel, hemp, hsel, hdl, hfz, hv]
            | true => simp [hrel, hemp, hsel, hdl, hfz, hv]

/-- C6: download-with-retry at the source's budget (retries = 2) performs
at most three attempts and no more, succeeds as soon as one attempt
succeeds (stopping right after the first successful attempt), performs
after each failed attempt a wait of 500 * (index + 1) ms, strictly
increasing along the attempt index, and when all attempts fail the
pipeline's outcome is the terminal "download failed". -/
theorem downloadWithRetry_attempt_budget :
    (∀ att : Nat → Bool,
      (downloadWithRetry att 2).attemptsMade ≤ 3
      ∧ (downloadWithRetry att 2).ok = (att 0 || att 1 || att 2)
      ∧ (downloadWithRetry att 2).attemptsMade
          = (if att 0 then 1 else if att 1 then 2 else 3)
      ∧ (downloadWithRetry att 2).waits
          = (if att 0 then [] else if att 1 then [500]
              else if att 2 then [500, 1000] else [500, 1000, 1500])
      ∧ List.Chain' (· < ·) (downloadWithRetry att 2).waits)
    ∧ (∀ (e : GhEnv) (s : String) (release : Release) (asset : Asset),
        e.fetchRelease (parseSpec s).1 (parseSpec s).2 = some release →
        release.assets.isEmpty = false →
        selectAsset release.assets = some asset →
        (downloadWithRetry (e.att asset.browser_download_url) 2).ok = false →
        (installFromGitHub e s).outcome = ⟨s, false, some "download failed"⟩) := by
  constructor
  · intro att
    cases h0 : att 0 <;> cases h1 : att 1 <;> cases h2 : att 2 <;>
      simp [downloadWithRetry, downloadLoopAux, h0, h1, h2]
  · intro e s release asset hrel hne hsel hdl
    simp only [installFromGitHub, hrel, hne, hsel, hdl, Bool.false_eq_true, if_false]

/-- C6 witness: in a world where the release resolves, a tar.gz asset is
selected, and every download attempt fails, the outcome is the terminal
"download failed". -/
theorem downloadWithRetry_attempt_budget_witness :
    (installFromGitHub ghEnvAllDownloadsFail "o/r").outcome
        = ⟨"o/r", false, some "download failed"⟩ :=
  downloadWithRetry_attempt_budget.2 ghEnvAllDownloadsFail "o/r" relMixed
    ⟨"tool.tar.gz", "u1"⟩ rfl (by decide) (by decide) (by decide)

/-- C8 counterexample: the identifier "pip:" (recognized prefix, empty
payload) is not rejected as "empty package name" with no subprocess; the
code dispatches it, spawns `pip install` with the empty payload (third
component 1 counts one subprocess), and with a zero exit code even reports
success. -/
theorem pip_empty_payload_counterexample :
    installStepT envSubprocZero "pip:" = (⟨"", true, none⟩, 0, 1) := by decide

/-- C8 (amended): an identifier made of a recognized secondary-registry
prefix with an empty payload is dispatched to that ecosystem's installer,
which spawns one install subprocess on the empty package name and reports
that subprocess's result; only an identifier whose whole trimmed form is
empty yields the "empty package name" failure with no network access and
no subprocess. -/
theorem pip_empty_payload_dispatch (e : Env)
    (hfatal : e.fatal "pip:" = none) :
    installStepT e "pip:" = (installFromPip (e.pipExit "") "", 0, 1)
    ∧ (∀ raw : String, jsTrim raw = "" →
        installStepT e raw = (⟨raw, false, some "empty package name"⟩, 0, 0)) := by
  constructor
  · have htrim : jsTrim "pip:" = "pip:" := by decide
    have hdet : detectPackageTypeT e "pip:" = (PkgType.pip, 0) := rfl
    simp only [installStepT, htrim, hfatal, hdet]
    rfl
  · intro raw hr
    simp [installStepT, hr]

/-- C8 witness for the amended statement: the "pip:" request is dispatched
to the pip installer on the empty name, and a whitespace-only identifier is
the one that produces the "empty package name" failure. -/
theorem pip_empty_payload_dispatch_witness :
    installStepT envSubprocZero "pip:"
        = (installFromPip (envSubprocZero.pipExit "") "", 0, 1)
    ∧ installStepT envSubprocZero " "
        = (⟨" ", false, some "empty package name"⟩, 0, 0) :=
  ⟨(pip_empty_payload_dispatch envSubprocZero rfl).1,
   (pip_empty_payload_dispatch envSubprocZero rfl).2 " " (by decide)⟩

/-- C9 counterexample: the identifier " " trims to a form shorter than 2
characters, yet its outcome reason is "empty package name", not the
unknown-or-invalid-package reason the claim asserts for every such
identifier. -/
theorem short_identifier_counterexample :
    installStepT envAllFail " " = (⟨" ", false, some "empty package name"⟩, 0, 0) := by
  decide

/-- C9 (amended): for every identifier whose trimmed form is non-empty and
shorter than 2 characters, and absent a request-level internal exception,
ecosystem detection classifies it as invalid with zero network probes and
the request yields the "unknown or invalid package" failure with no network
access and no subprocess; an identifier whose trimmed form is empty instead
yields the "empty package name" failure (see the counterexample). -/
theorem short_identifier_invalid (e : Env) (raw : String)
    (hne : jsTrim raw ≠ "") (hlen : jsLength (jsTrim raw) < 2)
    (hfatal : e.fatal (jsTrim raw) = none) :
    detectPackageTypeT e (jsTrim raw) = (PkgType.invalid, 0)
    ∧ installStepT e raw = (⟨jsTrim raw, false, some "unknown or invalid package"⟩, 0, 0) := by
  have hdet : detectPackageTypeT e (jsTrim raw) = (PkgType.invalid, 0) := by
    simp only [detectPackageTypeT, jsTrim_idem]
    rw [if_pos (Or.inr hlen)]
  refine ⟨hdet, ?_⟩
  simp only [installStepT, if_neg hne, hfatal, hdet]

/-- C9 witness for the amended statement: the one-character identifier "g"
is classified invalid with zero probes and fails as unknown-or-invalid with
no network access and no subprocess. -/
theorem short_identifier_invalid_witness :
    detectPackageTypeT envAllFail "g" = (PkgType.invalid, 0)
    ∧ installStepT envAllFail "g"
        = (⟨"g", false, some "unknown or invalid package"⟩, 0, 0) := by
  have h := short_identifier_invalid envAllFail "g" (by decide) (by decide) rfl
  have hg : jsTrim "g" = "g" := by decide
  rw [hg] at h
  exact h

end JK

